import Mathlib

/-!
Verification development for the MaoGo address-registry API (`src/api.py`).

The single source file defines a FastAPI service over a SQLite table
`addresses`.  This file gives a shallow embedding of its logic:

* the SQLite table is a list of `AddressRec` values (`DB`); the
  `fecha_creacion` column (`TEXT DEFAULT CURRENT_TIMESTAMP`) is modelled as a
  logical clock: the row count at insertion time, which is strictly
  increasing with insertion order exactly as the wall-clock default is
  monotone;
* Python strings are Lean `String`s; `str.lower()` and SQLite `LOWER` are
  modelled at the ASCII level by `lowerAscii` (both only matter for ASCII
  data in this code base);
* SQLite `LIKE` (case-insensitive for ASCII, `%`/`_` wildcards) is modelled
  by `likeMatch`;
* Python floats are idealised as real numbers; `round`, `int()` truncation
  and `math` trigonometry become their exact real counterparts;
* each endpoint body becomes a pure function from the database value to an
  `Except` of the domain error (`404` = `.notFound`, `400` on insert =
  `.duplicateCode`, `400` on update = `.noFieldsToUpdate`) and result.
-/

/-- ASCII lower-casing of a string, character by character.  Models both
Python `str.lower()` and SQLite `LOWER(...)` on the ASCII data this service
handles. -/
def lowerAscii (s : String) : String := ⟨s.data.map Char.toLower⟩

/-- First character of a string; models Python `w[0]` on the non-empty
tokens produced by `pySplit` (the default is never reached there). -/
def firstChar (w : String) : Char := w.data.headD 'A'

/-- Helper for `pySplit`: `acc` is the current token, reversed. -/
def pySplitAux : List Char → List Char → List (List Char)
  | [], acc => if acc.isEmpty then [] else [acc.reverse]
  | c :: cs, acc =>
    if c.isWhitespace then
      if acc.isEmpty then pySplitAux cs [] else acc.reverse :: pySplitAux cs []
    else pySplitAux cs (c :: acc)

/-- Python `str.split()` with no separator: splits on runs of whitespace and
never yields empty tokens. -/
def pySplit (s : String) : List String := (pySplitAux s.data []).map fun l => ⟨l⟩

/-- Python `str.zfill w` for strings without a sign character: left-pad with
zeros up to width `w`. -/
def zfill (w : Nat) (s : String) : String :=
  ⟨List.replicate (w - s.data.length) '0' ++ s.data⟩

/-- Decimal representation of a natural number; models Python `str(n)` for
the non-negative integers this code prints (it is `Nat.repr` seen as a
character list). -/
def decRepr (n : Nat) : String := ⟨Nat.toDigits 10 n⟩

/-- Does `f` hold of some suffix of the list (the list itself and the empty
suffix included)? -/
def anyTail (f : List Char → Bool) : List Char → Bool
  | [] => f []
  | c :: s => f (c :: s) || anyTail f s

/-- SQLite `LIKE` matching on character lists: `%` matches any sequence
(here: the rest of the pattern must match some suffix), `_` any single
character, and plain characters compare case-insensitively (ASCII, via
`Char.toLower`), which is SQLite's default `LIKE` behaviour. -/
def likeMatch : List Char → List Char → Bool
  | [] => fun s => s.isEmpty
  | p :: ps => fun s =>
    if p = '%' then anyTail (likeMatch ps) s
    else
      match s with
      | [] => false
      | c :: s2 =>
        if p = '_' then likeMatch ps s2
        else (p.toLower == c.toLower) && likeMatch ps s2

/-- Strings free of the SQLite `LIKE` wildcard characters. -/
def noWild (l : List Char) : Bool := l.all fun c => !(c = '%' || c = '_')

/-- A persisted row of the `addresses` table.  The `id` autoincrement column
is omitted (no endpoint logic reads it); `fecha_creacion` is the logical
clock described in the header.  `lat`/`lng` are typed non-null because every
write path stores a non-null value (`Address.lat`/`lng` are required floats
and updates only apply non-null fields). -/
structure AddressRec where
  codigo : String
  provincia : Option String
  municipio : Option String
  sector : String
  calle : Option String
  numero : Option String
  referencia : Option String
  lat : ℚ
  lng : ℚ
  verificado : Option Int
  fuente : Option String
  creado_por : Option String
  notas : Option String
  fecha_creacion : Nat
deriving DecidableEq

/-- The pydantic `Address` request model with its defaults. -/
structure Address where
  codigo : Option String := none
  provincia : Option String := some "Valverde"
  municipio : Option String := some "Mao"
  sector : String
  calle : Option String := none
  numero : Option String := none
  referencia : Option String := none
  lat : ℚ
  lng : ℚ
  verificado : Option Int := some 0
  fuente : Option String := some "equipo"
  creado_por : Option String := some "API"
  notas : Option String := none
deriving DecidableEq

/-- The pydantic `AddressUpdate` request model.  A field that the client
left unset and a field explicitly set to `null` behave identically in
`update_address` (both are skipped), so both are modelled as `none`. -/
structure AddressUpdate where
  codigo : String
  provincia : Option String := none
  municipio : Option String := none
  sector : Option String := none
  calle : Option String := none
  numero : Option String := none
  referencia : Option String := none
  lat : Option ℚ := none
  lng : Option ℚ := none
  verificado : Option Int := none
  fuente : Option String := none
  creado_por : Option String := none
  notas : Option String := none
deriving DecidableEq

/-- State of the SQLite database: the rows of `addresses`, in insertion
order (rowid order). -/
structure DB where
  rows : List AddressRec
deriving DecidableEq

/-- Domain errors of the endpoints, with their HTTP mapping:
`.notFound` = 404, `.duplicateCode` = 400 on insert ("El código ya existe"),
`.noFieldsToUpdate` = 400 on update ("No hay campos para actualizar"). -/
inductive ApiError where
  | notFound
  | duplicateCode
  | noFieldsToUpdate
deriving DecidableEq

/-- Python truthiness of an optional string (`if q:` / `if not x:`):
`None` and the empty string are falsy. -/
def pyTruthy : Option String → Bool
  | none => false
  | some s => !s.isEmpty

/-- The stop-word set of the code generator (line 143). -/
def stop_words : List String := ["de", "del", "la", "el", "los", "las", "y"]

/-- The non-stop-word tokens of a sector name (line 144):
`[w for w in address.sector.split() if w.lower() not in stop_words]`. -/
def sectorToks (sector : String) : List String :=
  (pySplit sector).filter fun w => !(stop_words.contains (lowerAscii w))

/-- The sector abbreviation (line 145):
`"".join(w[0].upper() for w in words)[:5] if words else "XXX"`. -/
def abbrOf (sector : String) : String :=
  let words := sectorToks sector
  if words.isEmpty then "XXX" else ⟨((words.map fun w => (firstChar w).toUpper).take 5)⟩

/-- The code prefix for a sector (line 146): `f"VG-MAO-{abbr}-"`. -/
def codePfx (sector : String) : String := "VG-MAO-" ++ abbrOf sector ++ "-"

/-- Number of rows whose `codigo` matches a `LIKE` pattern; models
`SELECT COUNT(*) FROM addresses WHERE codigo LIKE ?` (line 148). -/
def countLike (st : DB) (pat : String) : Nat :=
  (st.rows.filter fun r => likeMatch pat.data r.codigo.data).length

/-- The generated code for a sector, given the prefix count the repository
returned (line 150): `f"{prefix}{str(count + 1).zfill(5)}"`. -/
def codigoFromCount (sector : String) (count : Nat) : String :=
  codePfx sector ++ zfill 5 (decRepr (count + 1))

/-- Code generation against the current database (lines 142-150). -/
def generate_codigo (st : DB) (sector : String) : String :=
  codigoFromCount sector (countLike st (codePfx sector ++ "%"))

/-- The code an insert will use (lines 141-152): the client-supplied code
when it is truthy, the generated one otherwise. -/
def chosenCodigo (st : DB) (a : Address) : String :=
  if pyTruthy a.codigo then a.codigo.getD "" else generate_codigo st a.sector

/-- The row an insert produces from a request and the chosen code
(lines 155-164 plus the table defaults). -/
def mkRow (st : DB) (a : Address) (codigo : String) : AddressRec :=
  { codigo := codigo, provincia := a.provincia, municipio := a.municipio,
    sector := a.sector, calle := a.calle, numero := a.numero,
    referencia := a.referencia, lat := a.lat, lng := a.lng,
    verificado := a.verificado, fuente := a.fuente,
    creado_por := a.creado_por, notas := a.notas,
    fecha_creacion := st.rows.length }

/-- `POST /addresses/insert` (lines 135-175).  The `UNIQUE` constraint on
`codigo` makes the `INSERT` fail atomically with `sqlite3.IntegrityError`
when the chosen code already exists, mapped to HTTP 400; SQLite statement
atomicity means no partial row is stored in that case, so the error branch
returns no new state. -/
def insert_address (st : DB) (a : Address) : Except ApiError (DB × AddressRec) :=
  let codigo := chosenCodigo st a
  if st.rows.any (fun r => r.codigo == codigo) then .error .duplicateCode
  else .ok (⟨st.rows ++ [mkRow st a codigo]⟩, mkRow st a codigo)

/-- Database state after an insert: the new state on success, the unchanged
state on failure. -/
def insertDB (st : DB) (a : Address) : DB :=
  match insert_address st a with
  | .ok (st2, _) => st2
  | .error _ => st

/-- Merge of a patch into a row for the optional columns: a present field
overwrites, an absent/null one keeps the stored value. -/
def keepOr {α : Type} : Option α → Option α → Option α
  | some v, _ => some v
  | none, x => x

/-- Merge of a patch into a row for the non-null columns. -/
def setOr {α : Type} : Option α → α → α
  | some v, _ => v
  | none, x => x

/-- One iteration of the dynamic `UPDATE` construction (lines 198-201):
every field of the patch other than `codigo` that is not `None` is applied;
`codigo` and `fecha_creacion` are never in the `SET` list. -/
def applyPatch (p : AddressUpdate) (r : AddressRec) : AddressRec :=
  { r with
    provincia := keepOr p.provincia r.provincia,
    municipio := keepOr p.municipio r.municipio,
    sector := setOr p.sector r.sector,
    calle := keepOr p.calle r.calle,
    numero := keepOr p.numero r.numero,
    referencia := keepOr p.referencia r.referencia,
    lat := setOr p.lat r.lat,
    lng := setOr p.lng r.lng,
    verificado := keepOr p.verificado r.verificado,
    fuente := keepOr p.fuente r.fuente,
    creado_por := keepOr p.creado_por r.creado_por,
    notas := keepOr p.notas r.notas }

/-- Whether the dynamic `UPDATE` has at least one field to set, i.e. the
`updates` list of lines 195-201 is non-empty. -/
def patchApplicable (p : AddressUpdate) : Bool :=
  p.provincia.isSome || p.municipio.isSome || p.sector.isSome ||
  p.calle.isSome || p.numero.isSome || p.referencia.isSome ||
  p.lat.isSome || p.lng.isSome || p.verificado.isSome ||
  p.fuente.isSome || p.creado_por.isSome || p.notas.isSome

/-- `PUT /addresses/{codigo}` (lines 182-218).  The existence check, the
empty-patch check, the `UPDATE ... WHERE codigo = ?` over all matching rows,
and the final re-select of the first row with that code.  The last `.error
.notFound` branch is unreachable (the row was found just before) but keeps
the function total. -/
def update_address (st : DB) (codigo : String) (p : AddressUpdate) :
    Except ApiError (DB × AddressRec) :=
  match st.rows.find? (fun r => r.codigo == codigo) with
  | none => .error .notFound
  | some _ =>
    if !patchApplicable p then .error .noFieldsToUpdate
    else
      let rows2 := st.rows.map fun r => if r.codigo == codigo then applyPatch p r else r
      match rows2.find? (fun r => r.codigo == codigo) with
      | some r2 => .ok (⟨rows2⟩, r2)
      | none => .error .notFound

/-- Database state after an update: the new state on success, the unchanged
state on failure. -/
def updateDB (st : DB) (codigo : String) (p : AddressUpdate) : DB :=
  match update_address st codigo p with
  | .ok (st2, _) => st2
  | .error _ => st

/-- Whether a row matches the search query (lines 98-103): each of the four
columns is lower-cased and matched against the pattern `%q.lower()%` with
SQLite `LIKE`; a `NULL` column never matches (`LOWER(NULL) LIKE p` is
`NULL`). -/
def rowMatchesQ (q : String) (r : AddressRec) : Bool :=
  let pat := ("%" ++ lowerAscii q ++ "%").data
  likeMatch pat (lowerAscii r.sector).data ||
  (match r.calle with
   | some s => likeMatch pat (lowerAscii s).data
   | none => false) ||
  (match r.referencia with
   | some s => likeMatch pat (lowerAscii s).data
   | none => false) ||
  likeMatch pat (lowerAscii r.codigo).data

/-- Insert a row into a list already sorted by `fecha_creacion`
descending. -/
def insertDesc (r : AddressRec) : List AddressRec → List AddressRec
  | [] => [r]
  | x :: xs => if x.fecha_creacion < r.fecha_creacion then r :: x :: xs
    else x :: insertDesc r xs

/-- `ORDER BY fecha_creacion DESC` as an insertion sort on the logical
clock.  (In every reachable state the clock values are distinct, so any
correct descending sort produces this order.) -/
def sortByCreatedDesc : List AddressRec → List AddressRec
  | [] => []
  | r :: rs => insertDesc r (sortByCreatedDesc rs)

/-- `GET /addresses` (lines 90-109): optional filter, order by creation time
descending, cap at `limit` rows.  `limit` is modelled as a natural number
(the SQLite behaviour for negative limits is out of scope). -/
def get_addresses (st : DB) (q : Option String) (limit : Nat) : List AddressRec :=
  let matched := if pyTruthy q then st.rows.filter (rowMatchesQ (q.getD "")) else st.rows
  (sortByCreatedDesc matched).take limit

/-- The response of `POST /ride/estimate`.  The three interpolated values of
the Python f-string `f"{round(d,1)} km · ~{m} min · RD${round(fare)}"` are
kept as the `summary` triple: float-to-text rendering is a presentation
concern with no logic of its own. -/
structure RideEstimate where
  distance_km : ℝ
  estimated_minutes : ℤ
  estimated_fare_rdp : ℝ
  summary : ℝ × ℤ × ℤ

/-- Python `int(x)`: truncation toward zero. -/
noncomputable def pyTrunc (x : ℝ) : ℤ := if 0 ≤ x then ⌊x⌋ else ⌈x⌉

/-- Python `round(x, k)` idealised over the reals: round `x` to `k` decimal
places.  (Ties behave as in Mathlib `round`; the half-even behaviour of the
float implementation is a floating-point artefact outside this model.) -/
noncomputable def roundTo (k : ℕ) (x : ℝ) : ℝ :=
  ((round (x * 10 ^ k) : ℤ) : ℝ) / 10 ^ k

/-- The haversine great-circle distance of lines 240-250: degrees are turned
into radians (`math.radians`), then `R * 2 * asin(sqrt(a))` with
`R = 6371`. -/
noncomputable def havKm (lat1 lng1 lat2 lng2 : ℝ) : ℝ :=
  let rl1 := lat1 * (Real.pi / 180)
  let rg1 := lng1 * (Real.pi / 180)
  let rl2 := lat2 * (Real.pi / 180)
  let rg2 := lng2 * (Real.pi / 180)
  let dlat := rl2 - rl1
  let dlng := rg2 - rg1
  let a := Real.sin (dlat / 2) ^ 2 +
    Real.cos rl1 * Real.cos rl2 * Real.sin (dlng / 2) ^ 2
  6371 * (2 * Real.arcsin (Real.sqrt a))

/-- The fare computation of lines 252-265 as a pure function of the two
coordinate pairs. -/
noncomputable def fareEstimate (lat1 lng1 lat2 lng2 : ℝ) : RideEstimate :=
  let d := havKm lat1 lng1 lat2 lng2
  let fare := 75 + d * 35
  let minutes := pyTrunc (d / 25 * 60)
  { distance_km := roundTo 2 d,
    estimated_minutes := max 3 minutes,
    estimated_fare_rdp := roundTo 2 fare,
    summary := (roundTo 1 d, max 3 minutes, round fare) }

/-- `POST /ride/estimate` (lines 220-265): look up both codes and estimate.
Either endpoint missing is a single 404 (`if not pickup or not dropoff`). -/
noncomputable def estimate_ride (st : DB) (pickup_codigo dropoff_codigo : String) :
    Except ApiError RideEstimate :=
  match st.rows.find? (fun r => r.codigo == pickup_codigo),
        st.rows.find? (fun r => r.codigo == dropoff_codigo) with
  | some p, some d => .ok (fareEstimate (p.lat : ℝ) (p.lng : ℝ) (d.lat : ℝ) (d.lng : ℝ))
  | _, _ => .error .notFound

/-- States reachable from the empty table by successful inserts and updates
(failed requests leave the state unchanged, so they need no case). -/
inductive Reachable : DB → Prop where
  | base : Reachable ⟨[]⟩
  | ins (st st2 : DB) (a : Address) (r : AddressRec) :
      Reachable st → insert_address st a = .ok (st2, r) → Reachable st2
  | upd (st st2 : DB) (c : String) (p : AddressUpdate) (r : AddressRec) :
      Reachable st → update_address st c p = .ok (st2, r) → Reachable st2

/-- Geographic range of a persisted row, as claimed by the spec. -/
def rowInRange (r : AddressRec) : Prop :=
  -90 ≤ r.lat ∧ r.lat ≤ 90 ∧ -180 ≤ r.lng ∧ r.lng ≤ 180

/-- An insert request whose coordinates are within geographic range. -/
def addrInRange (a : Address) : Prop :=
  -90 ≤ a.lat ∧ a.lat ≤ 90 ∧ -180 ≤ a.lng ∧ a.lng ≤ 180

/-- An update request whose supplied coordinates, if any, are within
geographic range. -/
def patchInRange (p : AddressUpdate) : Prop :=
  (∀ v, p.lat = some v → -90 ≤ v ∧ v ≤ 90) ∧
  (∀ v, p.lng = some v → -180 ≤ v ∧ v ≤ 180)

/-- States reachable from the empty table by successful inserts and updates
whose requests all carried in-range coordinates. -/
inductive ReachableValid : DB → Prop where
  | base : ReachableValid ⟨[]⟩
  | ins (st st2 : DB) (a : Address) (r : AddressRec) :
      ReachableValid st → insert_address st a = .ok (st2, r) → addrInRange a →
      ReachableValid st2
  | upd (st st2 : DB) (c : String) (p : AddressUpdate) (r : AddressRec) :
      ReachableValid st → update_address st c p = .ok (st2, r) → patchInRange p →
      ReachableValid st2

/-!  Specification-side definitions, written from the wording of the claims
(not from the source), to be compared with the embedded code. -/

/-- Claim C1's abbreviation: split the sector on whitespace, drop every
token whose lowercase form is one of the seven stop words, take the first
character of each remaining token uppercased, concatenate, truncate to at
most 5 characters; the literal `"XXX"` when no tokens remain. -/
def abbrSpec (sector : String) : String :=
  let toks := (pySplit sector).filter fun w =>
    !(["de", "del", "la", "el", "los", "las", "y"].contains (lowerAscii w))
  if toks = [] then "XXX" else ⟨(((toks.map firstChar).map Char.toUpper).take 5)⟩

/-- Claim C1's generated code: `"VG-MAO-" + abbr + "-"` followed by the
5-digit zero-padded decimal representation of `c + 1`. -/
def codigoSpec (sector : String) (c : Nat) : String :=
  "VG-MAO-" ++ abbrSpec sector ++ "-" ++
    ⟨List.replicate (5 - (decRepr (c + 1)).data.length) '0' ++ (decRepr (c + 1)).data⟩

/-- Strip an expected literal from the front of a string, returning the
remainder on success. -/
def stripLit : List Char → List Char → Option (List Char)
  | [], s => some s
  | _ :: _, [] => none
  | a :: ps, c :: s => if a = c then stripLit ps s else none

/-- Claim C2's code pattern `VG-MAO-<1 to 5 uppercase letters>-<5 digits>`
as an executable recogniser. -/
def codePatternB (s : String) : Bool :=
  match stripLit "VG-MAO-".data s.data with
  | none => false
  | some rest =>
    let ab := rest.takeWhile fun c => c.isUpper
    decide (1 ≤ ab.length) && decide (ab.length ≤ 5) &&
      (match rest.drop ab.length with
       | '-' :: num => decide (num.length = 5) && num.all (fun c => c.isDigit)
       | _ => false)

/-- Claim C8's match predicate: the query is a case-insensitive substring of
the field, i.e. the lower-cased query occurs inside the lower-cased field. -/
def ciSubstrB (q s : String) : Bool := decide ((lowerAscii q).data <:+: (lowerAscii s).data)

/-- Claim C8's row predicate: the query matches at least one of `sector`,
`calle`, `referencia`, `codigo` (a `NULL` column contains no substring). -/
def specMatch (q : String) (r : AddressRec) : Bool :=
  ciSubstrB q r.sector ||
  (match r.calle with
   | some s => ciSubstrB q s
   | none => false) ||
  (match r.referencia with
   | some s => ciSubstrB q s
   | none => false) ||
  ciSubstrB q r.codigo

/-- Claim C5's frame condition between the old and new version of the
targeted record: `codigo` and `fecha_creacion` are untouched, every field
present in the patch takes the patch value, every absent field keeps its
stored value. -/
def FrameOk (p : AddressUpdate) (old new : AddressRec) : Prop :=
  new.codigo = old.codigo ∧
  new.fecha_creacion = old.fecha_creacion ∧
  (p.provincia = none → new.provincia = old.provincia) ∧
  (∀ v, p.provincia = some v → new.provincia = some v) ∧
  (p.municipio = none → new.municipio = old.municipio) ∧
  (∀ v, p.municipio = some v → new.municipio = some v) ∧
  (p.sector = none → new.sector = old.sector) ∧
  (∀ v, p.sector = some v → new.sector = v) ∧
  (p.calle = none → new.calle = old.calle) ∧
  (∀ v, p.calle = some v → new.calle = some v) ∧
  (p.numero = none → new.numero = old.numero) ∧
  (∀ v, p.numero = some v → new.numero = some v) ∧
  (p.referencia = none → new.referencia = old.referencia) ∧
  (∀ v, p.referencia = some v → new.referencia = some v) ∧
  (p.lat = none → new.lat = old.lat) ∧
  (∀ v, p.lat = some v → new.lat = v) ∧
  (p.lng = none → new.lng = old.lng) ∧
  (∀ v, p.lng = some v → new.lng = v) ∧
  (p.verificado = none → new.verificado = old.verificado) ∧
  (∀ v, p.verificado = some v → new.verificado = some v) ∧
  (p.fuente = none → new.fuente = old.fuente) ∧
  (∀ v, p.fuente = some v → new.fuente = some v) ∧
  (p.creado_por = none → new.creado_por = old.creado_por) ∧
  (∀ v, p.creado_por = some v → new.creado_por = some v) ∧
  (p.notas = none → new.notas = old.notas) ∧
  (∀ v, p.notas = some v → new.notas = some v)

/-- Claim C9's hypothesis: every field present in the patch equals the
record's current value. -/
def patchAgreesB (p : AddressUpdate) (r : AddressRec) : Bool :=
  p.provincia.all (fun v => r.provincia == some v) &&
  p.municipio.all (fun v => r.municipio == some v) &&
  p.sector.all (fun v => r.sector == v) &&
  p.calle.all (fun v => r.calle == some v) &&
  p.numero.all (fun v => r.numero == some v) &&
  p.referencia.all (fun v => r.referencia == some v) &&
  p.lat.all (fun v => r.lat == v) &&
  p.lng.all (fun v => r.lng == v) &&
  p.verificado.all (fun v => r.verificado == some v) &&
  p.fuente.all (fun v => r.fuente == some v) &&
  p.creado_por.all (fun v => r.creado_por == some v) &&
  p.notas.all (fun v => r.notas == some v)

/-! ASCII character lemmas about the core `Char` case functions. -/

theorem char_toNat_ofNat (n : Nat) (h : n.isValidChar) : (Char.ofNat n).toNat = n := by
  rw [Char.ofNat, dif_pos h]; rfl

theorem toLower_eq (c : Char) :
    c.toLower = if 65 ≤ c.toNat ∧ c.toNat ≤ 90 then Char.ofNat (c.toNat + 32) else c := rfl

theorem toUpper_eq (c : Char) :
    c.toUpper = if 97 ≤ c.toNat ∧ c.toNat ≤ 122 then Char.ofNat (c.toNat - 32) else c := rfl

theorem toNat_toLower (c : Char) :
    c.toLower.toNat = if 65 ≤ c.toNat ∧ c.toNat ≤ 90 then c.toNat + 32 else c.toNat := by
  rw [toLower_eq]; split
  · exact char_toNat_ofNat _ (Or.inl (by omega))
  · rfl

theorem toNat_toUpper (c : Char) :
    c.toUpper.toNat = if 97 ≤ c.toNat ∧ c.toNat ≤ 122 then c.toNat - 32 else c.toNat := by
  rw [toUpper_eq]; split
  · exact char_toNat_ofNat _ (Or.inl (by omega))
  · rfl

theorem toLower_idem (c : Char) : c.toLower.toLower = c.toLower := by
  have h : ¬(65 ≤ c.toLower.toNat ∧ c.toLower.toNat ≤ 90) := by
    rw [toNat_toLower]; split <;> omega
  rw [toLower_eq c.toLower, if_neg h]

theorem isUpper_iff (c : Char) : c.isUpper = true ↔ 65 ≤ c.toNat ∧ c.toNat ≤ 90 := by
  simp only [Char.isUpper, ge_iff_le, Bool.and_eq_true, decide_eq_true_eq,
    UInt32.le_def, BitVec.le_def]
  exact Iff.rfl

theorem isLower_iff (c : Char) : c.isLower = true ↔ 97 ≤ c.toNat ∧ c.toNat ≤ 122 := by
  simp only [Char.isLower, ge_iff_le, Bool.and_eq_true, decide_eq_true_eq,
    UInt32.le_def, BitVec.le_def]
  exact Iff.rfl

theorem isDigit_iff (c : Char) : c.isDigit = true ↔ 48 ≤ c.toNat ∧ c.toNat ≤ 57 := by
  simp only [Char.isDigit, ge_iff_le, Bool.and_eq_true, decide_eq_true_eq,
    UInt32.le_def, BitVec.le_def]
  exact Iff.rfl

theorem isUpper_toUpper (c : Char) (h : c.isAlpha = true) : c.toUpper.isUpper = true := by
  simp only [Char.isAlpha, Bool.or_eq_true] at h
  rw [isUpper_iff, toNat_toUpper]
  rcases h with h | h
  · rw [isUpper_iff] at h; split <;> omega
  · rw [isLower_iff] at h; split <;> omega

theorem char_eq_of_toNat_eq {c d : Char} (h : c.toNat = d.toNat) : c = d := by
  apply Char.ext
  apply UInt32.toBitVec_injective
  apply BitVec.toNat_injective
  exact h

theorem toLower_wild {c : Char} (w : Char) (hw : w.toNat < 97)
    (h : c.toLower = w) : c = w := by
  rw [toLower_eq] at h
  revert h; split
  · intro h
    have := congrArg Char.toNat h
    rw [char_toNat_ofNat _ (Or.inl (by omega))] at this
    omega
  · exact id

/-! Lemmas about the decimal printer, padding and the pattern recogniser. -/

theorem digitChar_isDigit (d : Nat) (h : d < 10) : (Nat.digitChar d).isDigit = true := by
  interval_cases d <;> decide

theorem toDigitsCore_digits (fuel : Nat) :
    ∀ n acc, (∀ c ∈ acc, c.isDigit = true) →
      ∀ c ∈ Nat.toDigitsCore 10 fuel n acc, c.isDigit = true := by
  induction fuel with
  | zero => intro n acc hacc c hc; exact hacc c hc
  | succ fuel ih =>
    intro n acc hacc c hc
    rw [Nat.toDigitsCore] at hc
    have hstep : ∀ d ∈ Nat.digitChar (n % 10) :: acc, d.isDigit = true := by
      intro d hd
      rw [List.mem_cons] at hd
      rcases hd with rfl | hd
      · exact digitChar_isDigit _ (Nat.mod_lt _ (by omega))
      · exact hacc _ hd
    by_cases h : n / 10 = 0
    · rw [if_pos h] at hc; exact hstep c hc
    · rw [if_neg h] at hc; exact ih _ _ hstep c hc

theorem toDigitsCore_length (fuel : Nat) :
    ∀ k n acc, 1 ≤ k → n < 10 ^ k →
      (Nat.toDigitsCore 10 fuel n acc).length ≤ k + acc.length := by
  induction fuel with
  | zero => intro k n acc _ _; rw [Nat.toDigitsCore]; omega
  | succ fuel ih =>
    intro k n acc hk hn
    rw [Nat.toDigitsCore]
    by_cases h : n / 10 = 0
    · rw [if_pos h]; simp; omega
    · rw [if_neg h]
      have hk1 : 2 ≤ k := by
        by_contra hk0
        have : k = 1 := by omega
        subst this
        simp at hn
        omega
      have hd : n / 10 < 10 ^ (k - 1) := by
        rw [Nat.div_lt_iff_lt_mul (by omega)]
        calc n < 10 ^ k := hn
        _ = 10 ^ (k - 1) * 10 := by
              rw [← pow_succ]
              congr 1
              omega
      have := ih (k - 1) (n / 10) (Nat.digitChar (n % 10) :: acc) (by omega) hd
      simp at this ⊢
      omega

theorem decRepr_digits (n : Nat) : ∀ c ∈ (decRepr n).data, c.isDigit = true :=
  toDigitsCore_digits (n + 1) n [] (by simp)

theorem decRepr_length (n : Nat) (h : n ≤ 99999) : (decRepr n).data.length ≤ 5 := by
  have := toDigitsCore_length (n + 1) 5 n [] (by omega) (by omega)
  simpa [decRepr, Nat.toDigits] using this

theorem zfill5_length (s : String) (h : s.data.length ≤ 5) :
    (zfill 5 s).data.length = 5 := by
  simp only [zfill, List.length_append, List.length_replicate]
  omega

theorem zfill5_digits (s : String) (h : ∀ c ∈ s.data, c.isDigit = true) :
    ∀ c ∈ (zfill 5 s).data, c.isDigit = true := by
  intro c hc
  simp only [zfill, List.mem_append, List.mem_replicate] at hc
  rcases hc with ⟨-, rfl⟩ | hc
  · decide
  · exact h c hc

theorem stripLit_app (l r : List Char) : stripLit l (l ++ r) = some r := by
  induction l with
  | nil => rfl
  | cons a l ih => simpa [stripLit] using ih

theorem takeWhile_app (p : Char → Bool) (l1 l2 : List Char) (d : Char)
    (h1 : ∀ c ∈ l1, p c = true) (h2 : p d = false) :
    (l1 ++ d :: l2).takeWhile p = l1 := by
  induction l1 with
  | nil => simp [List.takeWhile_cons, h2]
  | cons a l ih =>
    have ha : p a = true := h1 a (by simp)
    have ih2 := ih fun c hc => h1 c (by simp [hc])
    simp [List.takeWhile_cons, ha, ih2]

/-! Sample data used by the witness and counterexample theorems. -/

/-- An insert request with no client-supplied code, over the spec's own
example sector. -/
def aJardines : Address := { sector := "Sector Los Jardines", lat := 1, lng := 2 }

/-! Claim C1: the generated code formula. -/

/-- Claim C1: for every insert request carrying no client-supplied code and
every count `c` the repository's prefix count returns, the code the insert
uses is `"VG-MAO-" ++ abbr ++ "-"` followed by the 5-digit zero-padded
decimal representation of `c + 1`, with `abbr` as described by the spec
(stop words dropped, first letters uppercased, truncated to 5, `"XXX"` when
nothing remains). -/
theorem generated_code_formula (st : DB) (a : Address) (c : Nat)
    (hno : pyTruthy a.codigo = false)
    (hc : countLike st (codePfx a.sector ++ "%") = c) :
    chosenCodigo st a = codigoSpec a.sector c := by
  simp only [chosenCodigo, hno, Bool.false_eq_true, if_false, generate_codigo, codigoFromCount]
  rw [hc]
  simp only [codigoSpec, codePfx, abbrOf, sectorToks, zfill, abbrSpec, stop_words,
    List.map_map, Function.comp_def, List.isEmpty_iff]

/-- Witness for C1 at the spec's own example: empty table, sector
`"Sector Los Jardines"`, count 0. -/
theorem generated_code_formula_witness :
    pyTruthy aJardines.codigo = false ∧
    countLike ⟨[]⟩ (codePfx aJardines.sector ++ "%") = 0 ∧
    chosenCodigo ⟨[]⟩ aJardines = codigoSpec aJardines.sector 0 :=
  ⟨by decide, by decide, generated_code_formula ⟨[]⟩ aJardines 0 (by decide) (by decide)⟩

/-! Merge lemmas for the update engine. -/

theorem keepOr_self {α : Type} [DecidableEq α] (o x : Option α)
    (h : o.all (fun v => x == some v) = true) : keepOr o x = x := by
  cases o with
  | none => rfl
  | some v =>
    simp only [Option.all_some, beq_iff_eq] at h
    simp [keepOr, h]

theorem setOr_self {α : Type} [DecidableEq α] (o : Option α) (x : α)
    (h : o.all (fun v => x == v) = true) : setOr o x = x := by
  cases o with
  | none => rfl
  | some v =>
    simp only [Option.all_some, beq_iff_eq] at h
    simp [setOr, h]

/-- When every field present in a patch equals the record's current value,
applying the patch leaves the record unchanged. -/
theorem applyPatch_eq_self (p : AddressUpdate) (r : AddressRec)
    (h : patchAgreesB p r = true) : applyPatch p r = r := by
  simp only [patchAgreesB, Bool.and_eq_true] at h
  obtain ⟨⟨⟨⟨⟨⟨⟨⟨⟨⟨⟨h1, h2⟩, h3⟩, h4⟩, h5⟩, h6⟩, h7⟩, h8⟩, h9⟩, h10⟩, h11⟩, h12⟩ := h
  rw [applyPatch, keepOr_self _ _ h1, keepOr_self _ _ h2, setOr_self _ _ h3,
    keepOr_self _ _ h4, keepOr_self _ _ h5, keepOr_self _ _ h6, setOr_self _ _ h7,
    setOr_self _ _ h8, keepOr_self _ _ h9, keepOr_self _ _ h10, keepOr_self _ _ h11,
    keepOr_self _ _ h12]

/-! Claim C2: determinism and the shape `VG-MAO-<1 to 5 uppercase
letters>-<5 digits>` of generated codes. -/

/-- Counterexample to C2 as stated.  The sector `"7"` consists of the single
non-stop-word token `"7"`, yet the generated code `"VG-MAO-7-00001"` does not
match `VG-MAO-<1 to 5 uppercase letters>-<5 digits>`: Python `upper()` maps a
digit to itself, and the code performs no validation of the sector.  In
addition, for counts from `99999` upwards the sequence part has six digits,
as `str.zfill` never truncates: `"VG-MAO-S-100000"`. -/
theorem generate_code_pattern_cex :
    sectorToks "7" = ["7"] ∧
    codigoFromCount "7" 0 = "VG-MAO-7-00001" ∧
    codePatternB (codigoFromCount "7" 0) = false ∧
    codigoFromCount "Sector" 99999 = "VG-MAO-S-100000" ∧
    codePatternB (codigoFromCount "Sector" 99999) = false :=
  ⟨by decide, by decide, by decide, by decide, by decide⟩

/-- Claim C2, amended.  For every sector with at least one non-stop-word
token, each remaining token starting with an ASCII letter, and every count
with `count + 1 ≤ 99999`, the generator is deterministic (it is a pure
function of sector and count) and its output matches
`VG-MAO-<1 to 5 uppercase letters>-<5 digits>`. -/
theorem generate_code_pattern (sector : String) (c : Nat)
    (htok : sectorToks sector ≠ [])
    (halpha : ∀ w ∈ sectorToks sector, (firstChar w).isAlpha = true)
    (hc : c + 1 ≤ 99999) :
    codigoFromCount sector c = codigoFromCount sector c ∧
    codePatternB (codigoFromCount sector c) = true := by
  refine ⟨rfl, ?_⟩
  have habbr : abbrOf sector =
      ⟨((sectorToks sector).map fun w => (firstChar w).toUpper).take 5⟩ := by
    rw [abbrOf, if_neg]
    simp [List.isEmpty_iff, htok]
  have hup : ∀ ch ∈ ((sectorToks sector).map fun w => (firstChar w).toUpper).take 5,
      ch.isUpper = true := by
    intro ch hch
    have hch2 := List.mem_of_mem_take hch
    rw [List.mem_map] at hch2
    obtain ⟨w, hw, rfl⟩ := hch2
    exact isUpper_toUpper _ (halpha w hw)
  have hlen1 : 1 ≤ (((sectorToks sector).map fun w => (firstChar w).toUpper).take 5).length := by
    rw [List.length_take, List.length_map]
    have := List.length_pos.mpr htok
    omega
  have hlen5 : (((sectorToks sector).map fun w => (firstChar w).toUpper).take 5).length ≤ 5 := by
    rw [List.length_take]; omega
  have hzlen : (zfill 5 (decRepr (c + 1))).data.length = 5 :=
    zfill5_length _ (decRepr_length _ hc)
  have hzdig : ∀ ch ∈ (zfill 5 (decRepr (c + 1))).data, ch.isDigit = true :=
    zfill5_digits _ (decRepr_digits _)
  have hdata : (codigoFromCount sector c).data =
      "VG-MAO-".data ++ (((sectorToks sector).map fun w => (firstChar w).toUpper).take 5
        ++ '-' :: (zfill 5 (decRepr (c + 1))).data) := by
    rw [codigoFromCount, codePfx, habbr]
    simp
  rw [codePatternB, hdata, stripLit_app]
  dsimp only
  rw [takeWhile_app (fun ch => ch.isUpper)
    (((sectorToks sector).map fun w => (firstChar w).toUpper).take 5)
    ((zfill 5 (decRepr (c + 1))).data) '-' hup (by decide), List.drop_left]
  have hpos : 1 ≤ (sectorToks sector).length := List.length_pos.mpr htok
  simp [hlen1, hlen5, hzlen, List.all_eq_true, hpos]
  exact hzdig

/-- Witness for the amended C2 at sector `"Sector Los Jardines"` and
count 41. -/
theorem generate_code_pattern_witness :
    sectorToks "Sector Los Jardines" ≠ [] ∧
    (∀ w ∈ sectorToks "Sector Los Jardines", (firstChar w).isAlpha = true) ∧
    41 + 1 ≤ 99999 ∧
    codePatternB (codigoFromCount "Sector Los Jardines" 41) = true :=
  ⟨by decide, by decide, by decide,
    (generate_code_pattern "Sector Los Jardines" 41 (by decide) (by decide) (by decide)).2⟩

/-! Claim C7: duplicate codes are rejected and nothing is persisted. -/

/-- A stored row used by several witnesses. -/
def rowABC : AddressRec :=
  { codigo := "ABC", provincia := none, municipio := none, sector := "Norte",
    calle := none, numero := none, referencia := none, lat := 0, lng := 0,
    verificado := none, fuente := none, creado_por := none, notas := none,
    fecha_creacion := 0 }

/-- An insert request that supplies the already-stored code `"ABC"`. -/
def aDup : Address := { codigo := some "ABC", sector := "Norte", lat := 3, lng := 4 }

/-- Claim C7: whenever the code an insert will use (client-supplied or
generated) equals the code of an already-persisted record, the insert fails
with `DuplicateCodeError` (HTTP 400) and the stored state is unchanged. -/
theorem insert_duplicate (st : DB) (a : Address)
    (hdup : ∃ r ∈ st.rows, r.codigo = chosenCodigo st a) :
    insert_address st a = .error .duplicateCode ∧ insertDB st a = st := by
  have hany : (st.rows.any fun r => r.codigo == chosenCodigo st a) = true := by
    rw [List.any_eq_true]
    obtain ⟨r, hr, he⟩ := hdup
    exact ⟨r, hr, by simp [he]⟩
  constructor
  · simp [insert_address, hany]
  · simp [insertDB, insert_address, hany]

/-- Witness for C7: inserting a second record with explicit code `"ABC"`
into a table already holding `"ABC"` fails and changes nothing. -/
theorem insert_duplicate_witness :
    (∃ r ∈ (⟨[rowABC]⟩ : DB).rows, r.codigo = chosenCodigo ⟨[rowABC]⟩ aDup) ∧
    insert_address ⟨[rowABC]⟩ aDup = .error .duplicateCode ∧
    insertDB ⟨[rowABC]⟩ aDup = ⟨[rowABC]⟩ :=
  ⟨by decide, insert_duplicate ⟨[rowABC]⟩ aDup (by decide)⟩

/-! Claim C6: an update with no applicable field is a 400, not a no-op. -/

/-- A patch with no applicable field (only the immutable `codigo`). -/
def pEmpty : AddressUpdate := { codigo := "ABC" }

/-- Claim C6: for an existing address, an update whose patch has no
applicable field (after dropping the immutable `codigo` and all absent/null
fields) fails with `ValidationError` ("No hay campos para actualizar",
HTTP 400) and leaves the stored state unchanged. -/
theorem update_empty_patch (st : DB) (c : String) (p : AddressUpdate)
    (hex : (st.rows.find? fun r => r.codigo == c).isSome = true)
    (hempty : patchApplicable p = false) :
    update_address st c p = .error .noFieldsToUpdate ∧ updateDB st c p = st := by
  obtain ⟨r0, hr0⟩ := Option.isSome_iff_exists.mp hex
  constructor
  · rw [update_address, hr0]
    simp [hempty]
  · rw [updateDB, update_address, hr0]
    simp [hempty]

/-- Witness for C6: the empty patch against the stored row `"ABC"`. -/
theorem update_empty_patch_witness :
    ((⟨[rowABC]⟩ : DB).rows.find? fun r => r.codigo == "ABC").isSome = true ∧
    patchApplicable pEmpty = false ∧
    update_address ⟨[rowABC]⟩ "ABC" pEmpty = .error .noFieldsToUpdate ∧
    updateDB ⟨[rowABC]⟩ "ABC" pEmpty = ⟨[rowABC]⟩ :=
  ⟨by decide, by decide, update_empty_patch ⟨[rowABC]⟩ "ABC" pEmpty (by decide) (by decide)⟩

/-! Claim C9: updating with currently-equal values changes nothing. -/

/-- Claim C9: when every row bearing the targeted code already has the
values the patch supplies, the stored state after the update (whether it
succeeds or fails with an empty patch or a missing code) is identical to the
state before the call. -/
theorem update_equal_values_id (st : DB) (c : String) (p : AddressUpdate)
    (hag : ∀ r ∈ st.rows, r.codigo = c → patchAgreesB p r = true) :
    updateDB st c p = st := by
  rw [updateDB, update_address]
  cases hf : st.rows.find? (fun r => r.codigo == c) with
  | none => rfl
  | some r0 =>
    dsimp only
    by_cases hap : patchApplicable p
    · have hrows : (st.rows.map fun r => if r.codigo == c then applyPatch p r else r)
          = st.rows := by
        have hid : (st.rows.map fun r => if r.codigo == c then applyPatch p r else r)
            = st.rows.map id := by
          apply List.map_congr_left
          intro r hr
          show (if r.codigo == c then applyPatch p r else r) = r
          by_cases hcode : r.codigo == c
          · rw [if_pos hcode]
            exact applyPatch_eq_self p r (hag r hr (by simpa using hcode))
          · rw [if_neg hcode]
        rw [hid, List.map_id]
      rw [hap]
      simp only [Bool.not_true, Bool.false_eq_true, if_false, hrows, hf]
    · simp [hap]

/-! Claim C5: updates apply exactly the present fields and never move
`codigo` or `fecha_creacion`. -/

/-- Applying any patch satisfies the frame condition of claim C5. -/
theorem applyPatch_frameOk (p : AddressUpdate) (r : AddressRec) :
    FrameOk p r (applyPatch p r) := by
  refine ⟨rfl, rfl, ?_, ?_, ?_, ?_, ?_, ?_, ?_, ?_, ?_, ?_, ?_, ?_, ?_, ?_, ?_, ?_,
    ?_, ?_, ?_, ?_, ?_, ?_, ?_, ?_⟩ <;>
    first
      | (intro h; simp [applyPatch, keepOr, setOr, h])
      | (intro v h; simp [applyPatch, keepOr, setOr, h])

/-- A patch with no applicable field satisfies the frame condition
reflexively. -/
theorem frameOk_refl (p : AddressUpdate) (hempty : patchApplicable p = false)
    (r : AddressRec) : FrameOk p r r := by
  simp only [patchApplicable, Bool.or_eq_false_iff, Option.not_isSome,
    Option.isNone_iff_eq_none] at hempty
  obtain ⟨⟨⟨⟨⟨⟨⟨⟨⟨⟨⟨h1, h2⟩, h3⟩, h4⟩, h5⟩, h6⟩, h7⟩, h8⟩, h9⟩, h10⟩, h11⟩, h12⟩ := hempty
  simp [FrameOk, h1, h2, h3, h4, h5, h6, h7, h8, h9, h10, h11, h12]

/-- The re-selection after a successful `UPDATE` finds the patched row: the
patch never changes `codigo`, so the row keeps matching its `WHERE`
clause. -/
theorem find?_rows2 (st : DB) (c : String) (p : AddressUpdate) (r0 : AddressRec)
    (hf : st.rows.find? (fun r => r.codigo == c) = some r0) :
    (st.rows.map fun r => if r.codigo == c then applyPatch p r else r).find?
        (fun r => r.codigo == c)
      = some (if r0.codigo == c then applyPatch p r0 else r0) := by
  rw [List.find?_map]
  have hcomp : ((fun r : AddressRec => r.codigo == c) ∘
      fun r => if r.codigo == c then applyPatch p r else r) = fun r => r.codigo == c := by
    funext r
    by_cases hc : r.codigo == c
    · simp [Function.comp, hc, applyPatch]
    · simp [Function.comp, hc]
  rw [hcomp, hf]
  rfl

/-- Claim C5: for every state, target code and patch, the rows after the
update are in one-to-one correspondence with the rows before it; a row with
a different code is unchanged, and the targeted row satisfies the frame
condition: `codigo` and `fecha_creacion` untouched, present fields set to
the patch values, absent or null fields kept.  This also covers failing
updates, which change nothing. -/
theorem update_frame (st : DB) (c : String) (p : AddressUpdate) :
    List.Forall₂
      (fun old new => (old.codigo ≠ c → new = old) ∧ (old.codigo = c → FrameOk p old new))
      st.rows (updateDB st c p).rows := by
  rw [updateDB, update_address]
  cases hf : st.rows.find? (fun r => r.codigo == c) with
  | none =>
    dsimp only
    rw [List.find?_eq_none] at hf
    apply List.forall₂_same.mpr
    intro r hr
    exact ⟨fun _ => rfl, fun hc => absurd (by simp [hc]) (hf r hr)⟩
  | some r0 =>
    dsimp only
    by_cases hap : patchApplicable p
    · rw [hap]
      simp only [Bool.not_true, Bool.false_eq_true, if_false]
      rw [find?_rows2 st c p r0 hf]
      dsimp only
      rw [List.forall₂_map_right_iff]
      apply List.forall₂_same.mpr
      intro r hr
      by_cases hc : r.codigo == c
      · refine ⟨fun habs => absurd (by simpa using hc) habs, fun _ => ?_⟩
        rw [if_pos hc]
        exact applyPatch_frameOk p r
      · exact ⟨fun _ => by rw [if_neg hc], fun hceq => absurd (by simp [hceq]) hc⟩
    · have hap2 : patchApplicable p = false := by simpa using hap
      rw [hap2]
      simp only [Bool.not_false, if_true]
      apply List.forall₂_same.mpr
      intro r hr
      exact ⟨fun _ => rfl, fun _ => frameOk_refl p hap2 r⟩

/-! Claim C4: geographic range of persisted coordinates. -/

/-- Inversion of a successful insert: the new state appends exactly the row
built from the request and the chosen code. -/
theorem insert_ok_rows (st : DB) (a : Address) (st2 : DB) (r : AddressRec)
    (h : insert_address st a = .ok (st2, r)) :
    st2.rows = st.rows ++ [mkRow st a (chosenCodigo st a)] ∧
      r = mkRow st a (chosenCodigo st a) := by
  rw [insert_address] at h
  by_cases hany : (st.rows.any fun rr => rr.codigo == chosenCodigo st a) = true
  · rw [if_pos hany] at h; cases h
  · rw [if_neg hany] at h
    simp only [Except.ok.injEq, Prod.mk.injEq] at h
    obtain ⟨h1, h2⟩ := h
    exact ⟨by rw [← h1], h2.symm⟩

/-- Inversion of a successful update: the new state maps the patch over the
rows bearing the targeted code. -/
theorem update_ok_rows (st : DB) (c : String) (p : AddressUpdate) (st2 : DB)
    (r2 : AddressRec) (h : update_address st c p = .ok (st2, r2)) :
    st2.rows = st.rows.map fun r => if r.codigo == c then applyPatch p r else r := by
  rw [update_address] at h
  cases hf : st.rows.find? (fun r => r.codigo == c) with
  | none => rw [hf] at h; cases h
  | some r0 =>
    rw [hf] at h
    dsimp only at h
    by_cases hap : patchApplicable p
    · rw [hap] at h
      simp only [Bool.not_true, Bool.false_eq_true, if_false] at h
      rw [find?_rows2 st c p r0 hf] at h
      simp only [Except.ok.injEq, Prod.mk.injEq] at h
      rw [← h.1]
    · have hap2 : patchApplicable p = false := by simpa using hap
      rw [hap2] at h
      simp only [Bool.not_false, if_true] at h
      cases h

/-- An insert request with an out-of-range latitude, which the service
accepts without validation. -/
def aBad : Address := { sector := "Centro", lat := 200, lng := 0 }

/-- The row the insert of `aBad` into the empty table persists. -/
def rowBad : AddressRec :=
  { codigo := "VG-MAO-C-00001", provincia := some "Valverde", municipio := some "Mao",
    sector := "Centro", calle := none, numero := none, referencia := none,
    lat := 200, lng := 0, verificado := some 0, fuente := some "equipo",
    creado_por := some "API", notas := none, fecha_creacion := 0 }

/-- Counterexample to C4 as stated: the state holding only `rowBad`
(latitude 200) is reachable by a single insert — no endpoint validates
coordinate ranges — yet its record violates the claimed range invariant. -/
theorem persisted_range_cex :
    Reachable ⟨[rowBad]⟩ ∧ ¬ (∀ r ∈ (⟨[rowBad]⟩ : DB).rows, rowInRange r) :=
  ⟨Reachable.ins ⟨[]⟩ ⟨[rowBad]⟩ aBad rowBad Reachable.base rfl,
   by simp [rowInRange, rowBad]; norm_num⟩

/-- Claim C4, amended: every record persisted through any sequence of insert
and update operations whose requests carried in-range coordinates has its
latitude in `[-90, 90]` and longitude in `[-180, 180]`.  (Unrestricted
requests can persist any coordinates, per `persisted_range_cex`.) -/
theorem persisted_range_of_valid (st : DB) (h : ReachableValid st) :
    ∀ r ∈ st.rows, rowInRange r := by
  induction h with
  | base => intro r hr; cases hr
  | ins st st2 a r hst hins ha ih =>
    obtain ⟨hrows, -⟩ := insert_ok_rows st a st2 r hins
    intro x hx
    rw [hrows, List.mem_append] at hx
    rcases hx with hx | hx
    · exact ih x hx
    · rw [List.mem_singleton] at hx
      subst hx
      obtain ⟨h1, h2, h3, h4⟩ := ha
      exact ⟨h1, h2, h3, h4⟩
  | upd st st2 c p r hst hupd hp ih =>
    have hrows := update_ok_rows st c p st2 r hupd
    intro x hx
    rw [hrows, List.mem_map] at hx
    obtain ⟨y, hy, rfl⟩ := hx
    by_cases hc : y.codigo == c
    · rw [if_pos hc]
      obtain ⟨hplat, hplng⟩ := hp
      obtain ⟨i1, i2, i3, i4⟩ := ih y hy
      have hlat2 : (applyPatch p y).lat = setOr p.lat y.lat := rfl
      have hlng2 : (applyPatch p y).lng = setOr p.lng y.lng := rfl
      have blat : -90 ≤ setOr p.lat y.lat ∧ setOr p.lat y.lat ≤ 90 := by
        cases hl : p.lat with
        | none => exact ⟨i1, i2⟩
        | some v => simpa [setOr] using hplat v hl
      have blng : -180 ≤ setOr p.lng y.lng ∧ setOr p.lng y.lng ≤ 180 := by
        cases hg : p.lng with
        | none => exact ⟨i3, i4⟩
        | some v => simpa [setOr] using hplng v hg
      exact ⟨hlat2 ▸ blat.1, hlat2 ▸ blat.2, hlng2 ▸ blng.1, hlng2 ▸ blng.2⟩
    · rw [if_neg hc]; exact ih y hy

/-- An in-range insert request. -/
def aOk : Address := { sector := "Centro", lat := 19, lng := -71 }

/-- The row persisted by inserting `aOk` into the empty table. -/
def rowOk : AddressRec :=
  { codigo := "VG-MAO-C-00001", provincia := some "Valverde", municipio := some "Mao",
    sector := "Centro", calle := none, numero := none, referencia := none,
    lat := 19, lng := -71, verificado := some 0, fuente := some "equipo",
    creado_por := some "API", notas := none, fecha_creacion := 0 }

/-- Witness for the amended C4: a one-insert history with in-range
coordinates yields a state whose records are all in range. -/
theorem persisted_range_of_valid_witness :
    ReachableValid ⟨[rowOk]⟩ ∧ ∀ r ∈ (⟨[rowOk]⟩ : DB).rows, rowInRange r :=
  have hreach : ReachableValid ⟨[rowOk]⟩ :=
    ReachableValid.ins ⟨[]⟩ ⟨[rowOk]⟩ aOk rowOk ReachableValid.base rfl
      (by constructor <;> norm_num [aOk])
  ⟨hreach, persisted_range_of_valid ⟨[rowOk]⟩ hreach⟩

/-! Claim C8: search as case-insensitive substring matching.  The bridge
between SQLite `LIKE` with the pattern `%q%` and plain substring
containment. -/

theorem anyTail_iff (f : List Char → Bool) (s : List Char) :
    anyTail f s = true ↔ ∃ t, t <:+ s ∧ f t = true := by
  induction s with
  | nil =>
    simp only [anyTail]
    constructor
    · intro h; exact ⟨[], List.nil_suffix, h⟩
    · rintro ⟨t, ht, hf⟩
      rw [List.suffix_nil] at ht
      exact ht ▸ hf
  | cons c s ih =>
    simp only [anyTail, Bool.or_eq_true, ih]
    constructor
    · rintro (h | ⟨t, ht, hf⟩)
      · exact ⟨c :: s, List.suffix_refl _, h⟩
      · exact ⟨t, ht.trans (List.suffix_cons c s), hf⟩
    · rintro ⟨t, ht, hf⟩
      rw [List.suffix_cons_iff] at ht
      rcases ht with rfl | ht
      · exact Or.inl hf
      · exact Or.inr ⟨t, ht, hf⟩

/-- A suffix of a mapped list is the image of a suffix. -/
theorem map_suffix_exists {α β : Type} (g : α → β) (s : List α) (u : List β)
    (h : u <:+ s.map g) : ∃ t, t <:+ s ∧ t.map g = u := by
  induction s with
  | nil =>
    rw [List.map_nil, List.suffix_nil] at h
    exact ⟨[], List.suffix_refl _, by simp [h]⟩
  | cons c s ih =>
    rw [List.map_cons, List.suffix_cons_iff] at h
    rcases h with rfl | h
    · exact ⟨c :: s, List.suffix_refl _, rfl⟩
    · obtain ⟨t, ht, rfl⟩ := ih h
      exact ⟨t, ht.trans (List.suffix_cons c s), rfl⟩

/-- For a wildcard-free pattern, `p ++ "%"` matches exactly the strings
whose lower-cased form starts with the lower-cased pattern. -/
theorem likeMatch_append_pct (p : List Char) (hw : noWild p = true) :
    ∀ s, likeMatch (p ++ ['%']) s = true ↔ p.map Char.toLower <+: s.map Char.toLower := by
  induction p with
  | nil =>
    intro s
    simp only [List.nil_append, likeMatch, List.map_nil]
    rw [if_pos trivial, anyTail_iff]
    constructor
    · intro _; exact List.nil_prefix
    · intro _
      refine ⟨[], List.nil_suffix, rfl⟩
  | cons a p ih =>
    simp only [noWild, List.all_cons, Bool.and_eq_true, Bool.not_eq_true',
      Bool.or_eq_false_iff, decide_eq_false_iff_not] at hw
    obtain ⟨⟨ha1, ha2⟩, hp⟩ := hw
    have ihp := ih (by simpa [noWild, List.all_eq_true] using hp)
    intro s
    cases s with
    | nil =>
      simp only [List.cons_append, likeMatch, if_neg ha1, List.map_cons, List.map_nil]
      simp
    | cons c s2 =>
      simp only [List.cons_append, likeMatch, if_neg ha1, if_neg ha2, List.map_cons,
        List.append_eq]
      rw [Bool.and_eq_true, beq_iff_eq, ihp s2, List.cons_prefix_cons]

/-- For a wildcard-free pattern, `"%" ++ p ++ "%"` matches exactly the
strings whose lower-cased form contains the lower-cased pattern. -/
theorem likeMatch_pct_pct (p : List Char) (hw : noWild p = true) (s : List Char) :
    likeMatch ('%' :: (p ++ ['%'])) s = true ↔
      p.map Char.toLower <:+: s.map Char.toLower := by
  have h0 : likeMatch ('%' :: (p ++ ['%'])) s = anyTail (likeMatch (p ++ ['%'])) s := by
    simp [likeMatch]
  rw [h0, anyTail_iff, List.infix_iff_prefix_suffix]
  constructor
  · rintro ⟨t, ht, hf⟩
    exact ⟨t.map Char.toLower, (likeMatch_append_pct p hw t).mp hf, ht.map _⟩
  · rintro ⟨u, hu, hsuf⟩
    obtain ⟨t, ht, rfl⟩ := map_suffix_exists Char.toLower s u hsuf
    exact ⟨t, ht, (likeMatch_append_pct p hw t).mpr hu⟩

/-- Lower-casing preserves wildcard-freeness: only upper-case letters are
moved, and they land on lower-case letters, never on `%` or `_`. -/
theorem noWild_map_toLower (p : List Char) (h : noWild p = true) :
    noWild (p.map Char.toLower) = true := by
  simp only [noWild, List.all_eq_true, List.mem_map, Bool.not_eq_true',
    Bool.or_eq_false_iff, decide_eq_false_iff_not] at h ⊢
  rintro c ⟨d, hd, rfl⟩
  obtain ⟨hd1, hd2⟩ := h d hd
  exact ⟨fun he => hd1 (toLower_wild _ (by decide) he),
    fun he => hd2 (toLower_wild _ (by decide) he)⟩

theorem map_toLower_idem (l : List Char) :
    (l.map Char.toLower).map Char.toLower = l.map Char.toLower := by
  rw [List.map_map]
  exact List.map_congr_left fun c _ => toLower_idem c

/-- The search condition of the SQL query coincides with case-insensitive
substring containment for wildcard-free queries. -/
theorem likeMatch_substr (q f : String) (hq : noWild q.data = true) :
    likeMatch ("%" ++ lowerAscii q ++ "%").data (lowerAscii f).data = ciSubstrB q f := by
  have hpat : ("%" ++ lowerAscii q ++ "%").data = '%' :: ((lowerAscii q).data ++ ['%']) := by
    simp [lowerAscii]
  have hwl : noWild (lowerAscii q).data = true := noWild_map_toLower _ hq
  rw [hpat, ciSubstrB, Bool.eq_iff_iff, decide_eq_true_eq, likeMatch_pct_pct _ hwl]
  show (q.data.map Char.toLower).map Char.toLower <:+:
      (f.data.map Char.toLower).map Char.toLower ↔ _
  rw [map_toLower_idem, map_toLower_idem]
  exact Iff.rfl

/-- Row-level version of the bridge over the four searchable columns. -/
theorem rowMatchesQ_eq_specMatch (q : String) (r : AddressRec)
    (hq : noWild q.data = true) : rowMatchesQ q r = specMatch q r := by
  have hsub : ∀ f, likeMatch ("%" ++ lowerAscii q ++ "%").data (lowerAscii f).data
      = ciSubstrB q f := fun f => likeMatch_substr q f hq
  rw [rowMatchesQ, specMatch]
  cases r.calle <;> cases r.referencia <;> simp only [hsub]

/-- Counterexample to C8 as stated: the query is pasted into a `LIKE`
pattern without escaping, so its wildcard characters keep their meaning.
The query `"_"` matches the stored row (any field with at least one
character), although `"_"` is not a substring of any of its four fields. -/
theorem search_substring_cex :
    get_addresses ⟨[rowABC]⟩ (some "_") 500 = [rowABC] ∧
    specMatch "_" rowABC = false :=
  ⟨by decide, by decide⟩

/-- Claim C8, amended: for query strings free of the `LIKE` wildcard
characters `%` and `_`, search returns exactly the rows with the query as a
case-insensitive substring of `sector`, `calle`, `referencia` or `codigo`
(`NULL` fields never match), ordered by creation time descending and capped
at `limit`; with no query the listing is unfiltered under the same order and
cap.  (An empty query string also takes the unfiltered branch, which agrees
with substring filtering since the empty string is a substring of
everything.) -/
theorem search_spec (st : DB) (q : String) (limit : Nat)
    (hq : noWild q.data = true) :
    get_addresses st (some q) limit
      = (sortByCreatedDesc (st.rows.filter (specMatch q))).take limit ∧
    get_addresses st none limit = (sortByCreatedDesc st.rows).take limit := by
  constructor
  · by_cases hqe : q.isEmpty
    · have hq0 : q = "" := (String.isEmpty_iff q).mp hqe
      subst hq0
      have hfilter : st.rows.filter (specMatch "") = st.rows := by
        rw [List.filter_eq_self]
        intro r hr
        have hci : ciSubstrB "" r.sector = true := by
          rw [ciSubstrB, decide_eq_true_eq]
          exact List.nil_infix
        rw [specMatch]
        cases r.calle <;> cases r.referencia <;> simp [hci]
      have hfalse : pyTruthy (some "") = false := by decide
      rw [hfilter]
      simp [get_addresses, hfalse]
    · have hne : pyTruthy (some q) = true := by simp [pyTruthy, hqe]
      have hfc : st.rows.filter (rowMatchesQ q) = st.rows.filter (specMatch q) :=
        List.filter_congr fun r _ => rowMatchesQ_eq_specMatch q r hq
      simp [get_addresses, hne, hfc]
  · simp [get_addresses, pyTruthy]

/-- Witness for the amended C8 at the query `"nor"` over a one-row table
(it matches `rowABC` through its sector `"Norte"`). -/
theorem search_spec_witness :
    noWild "nor".data = true ∧
    get_addresses ⟨[rowABC]⟩ (some "nor") 500
      = (sortByCreatedDesc ((⟨[rowABC]⟩ : DB).rows.filter (specMatch "nor"))).take 500 ∧
    get_addresses ⟨[rowABC]⟩ none 500
      = (sortByCreatedDesc (⟨[rowABC]⟩ : DB).rows).take 500 :=
  ⟨by decide, (search_spec ⟨[rowABC]⟩ "nor" 500 (by decide)).1,
    (search_spec ⟨[rowABC]⟩ "nor" 500 (by decide)).2⟩

/-! Claims C3 and C10: the fare estimator. -/

/-- The haversine distance is non-negative: `sqrt` is non-negative and
`arcsin` preserves sign. -/
theorem havKm_nonneg (lat1 lng1 lat2 lng2 : ℝ) : 0 ≤ havKm lat1 lng1 lat2 lng2 := by
  rw [havKm]
  have h1 : 0 ≤ Real.arcsin (Real.sqrt (Real.sin ((lat2 * (Real.pi / 180) -
      lat1 * (Real.pi / 180)) / 2) ^ 2 +
      Real.cos (lat1 * (Real.pi / 180)) * Real.cos (lat2 * (Real.pi / 180)) *
      Real.sin ((lng2 * (Real.pi / 180) - lng1 * (Real.pi / 180)) / 2) ^ 2)) :=
    Real.arcsin_nonneg.mpr (Real.sqrt_nonneg _)
  nlinarith

/-- Python `int()` truncation agrees with `floor` on non-negative reals. -/
theorem pyTrunc_eq_floor (x : ℝ) (hx : 0 ≤ x) : pyTrunc x = ⌊x⌋ := if_pos hx

/-- The pure estimator produces the four claimed output components. -/
theorem fareEstimate_spec (lat1 lng1 lat2 lng2 : ℝ) :
    fareEstimate lat1 lng1 lat2 lng2 =
      { distance_km := roundTo 2 (havKm lat1 lng1 lat2 lng2),
        estimated_minutes := max 3 ⌊havKm lat1 lng1 lat2 lng2 / 25 * 60⌋,
        estimated_fare_rdp := roundTo 2 (75 + havKm lat1 lng1 lat2 lng2 * 35),
        summary := (roundTo 1 (havKm lat1 lng1 lat2 lng2),
          max 3 ⌊havKm lat1 lng1 lat2 lng2 / 25 * 60⌋,
          round (75 + havKm lat1 lng1 lat2 lng2 * 35)) } := by
  rw [fareEstimate]
  rw [pyTrunc_eq_floor _ (mul_nonneg (div_nonneg (havKm_nonneg _ _ _ _) (by norm_num))
    (by norm_num))]

/-- Claim C3: for every pair of registered pickup and dropoff addresses, the
estimate returns the haversine distance rounded to 2 decimals, the fare
`75 + 35·d` rounded to 2 decimals, minutes `max 3 ⌊d/25·60⌋` (clamped from
below by 3, with `int()` truncation agreeing with `floor` since `d ≥ 0`),
and a summary combining the distance at 1 decimal, the same minutes and the
fare rounded to an integer. -/
theorem estimate_ride_spec (st : DB) (cp cd : String) (p d : AddressRec)
    (hp : st.rows.find? (fun r => r.codigo == cp) = some p)
    (hd : st.rows.find? (fun r => r.codigo == cd) = some d) :
    estimate_ride st cp cd = .ok
      { distance_km := roundTo 2 (havKm (p.lat : ℝ) (p.lng : ℝ) (d.lat : ℝ) (d.lng : ℝ)),
        estimated_minutes :=
          max 3 ⌊havKm (p.lat : ℝ) (p.lng : ℝ) (d.lat : ℝ) (d.lng : ℝ) / 25 * 60⌋,
        estimated_fare_rdp :=
          roundTo 2 (75 + havKm (p.lat : ℝ) (p.lng : ℝ) (d.lat : ℝ) (d.lng : ℝ) * 35),
        summary := (roundTo 1 (havKm (p.lat : ℝ) (p.lng : ℝ) (d.lat : ℝ) (d.lng : ℝ)),
          max 3 ⌊havKm (p.lat : ℝ) (p.lng : ℝ) (d.lat : ℝ) (d.lng : ℝ) / 25 * 60⌋,
          round (75 + havKm (p.lat : ℝ) (p.lng : ℝ) (d.lat : ℝ) (d.lng : ℝ) * 35)) } := by
  rw [estimate_ride, hp, hd]
  dsimp only
  rw [fareEstimate_spec]

/-- A registered pickup row. -/
def rowP : AddressRec :=
  { codigo := "P1", provincia := none, municipio := none, sector := "Centro",
    calle := none, numero := none, referencia := none, lat := 19, lng := -71,
    verificado := none, fuente := none, creado_por := none, notas := none,
    fecha_creacion := 0 }

/-- A registered dropoff row. -/
def rowD : AddressRec :=
  { codigo := "D1", provincia := none, municipio := none, sector := "Norte",
    calle := none, numero := none, referencia := none, lat := 18, lng := -70,
    verificado := none, fuente := none, creado_por := none, notas := none,
    fecha_creacion := 1 }

/-- A two-row database for the fare-estimate witness. -/
def dbRide : DB := ⟨[rowP, rowD]⟩

/-- Witness for C3 at the two concrete registered addresses of `dbRide`. -/
theorem estimate_ride_spec_witness :
    dbRide.rows.find? (fun r => r.codigo == "P1") = some rowP ∧
    dbRide.rows.find? (fun r => r.codigo == "D1") = some rowD ∧
    estimate_ride dbRide "P1" "D1" = .ok
      { distance_km :=
          roundTo 2 (havKm (rowP.lat : ℝ) (rowP.lng : ℝ) (rowD.lat : ℝ) (rowD.lng : ℝ)),
        estimated_minutes :=
          max 3 ⌊havKm (rowP.lat : ℝ) (rowP.lng : ℝ) (rowD.lat : ℝ) (rowD.lng : ℝ) / 25 * 60⌋,
        estimated_fare_rdp :=
          roundTo 2 (75 + havKm (rowP.lat : ℝ) (rowP.lng : ℝ) (rowD.lat : ℝ) (rowD.lng : ℝ) * 35),
        summary :=
          (roundTo 1 (havKm (rowP.lat : ℝ) (rowP.lng : ℝ) (rowD.lat : ℝ) (rowD.lng : ℝ)),
            max 3 ⌊havKm (rowP.lat : ℝ) (rowP.lng : ℝ) (rowD.lat : ℝ) (rowD.lng : ℝ) / 25 * 60⌋,
            round (75 + havKm (rowP.lat : ℝ) (rowP.lng : ℝ) (rowD.lat : ℝ) (rowD.lng : ℝ) * 35)) } :=
  ⟨by decide, by decide,
    estimate_ride_spec dbRide "P1" "D1" rowP rowD (by decide) (by decide)⟩

/-- The haversine formula is symmetric in its two endpoints. -/
theorem havKm_symm (lat1 lng1 lat2 lng2 : ℝ) :
    havKm lat2 lng2 lat1 lng1 = havKm lat1 lng1 lat2 lng2 := by
  rw [havKm, havKm]
  rw [show (lat1 * (Real.pi / 180) - lat2 * (Real.pi / 180)) / 2
      = -((lat2 * (Real.pi / 180) - lat1 * (Real.pi / 180)) / 2) by ring,
    show (lng1 * (Real.pi / 180) - lng2 * (Real.pi / 180)) / 2
      = -((lng2 * (Real.pi / 180) - lng1 * (Real.pi / 180)) / 2) by ring,
    Real.sin_neg, Real.sin_neg, neg_sq, neg_sq,
    mul_comm (Real.cos (lat2 * (Real.pi / 180))) (Real.cos (lat1 * (Real.pi / 180)))]

/-- The pure estimator is symmetric in its two endpoints. -/
theorem fareEstimate_symm (lat1 lng1 lat2 lng2 : ℝ) :
    fareEstimate lat2 lng2 lat1 lng1 = fareEstimate lat1 lng1 lat2 lng2 := by
  rw [fareEstimate, fareEstimate]
  rw [havKm_symm]

/-- Claim C10: swapping pickup and dropoff yields the same estimate —
identical distance, minutes, fare and summary (and the same 404 when either
endpoint is missing). -/
theorem estimate_ride_symm (st : DB) (c1 c2 : String) :
    estimate_ride st c1 c2 = estimate_ride st c2 c1 := by
  rw [estimate_ride, estimate_ride]
  cases h1 : st.rows.find? (fun r => r.codigo == c1) with
  | none =>
    cases h2 : st.rows.find? (fun r => r.codigo == c2) with
    | none => rfl
    | some d => rfl
  | some p =>
    cases h2 : st.rows.find? (fun r => r.codigo == c2) with
    | none => rfl
    | some d =>
      dsimp only
      rw [fareEstimate_symm]

/-- A patch repeating the stored values of `rowABC`. -/
def pSame : AddressUpdate := { codigo := "ABC", sector := some "Norte", lat := some 0 }

/-- Witness for C9: repeating `rowABC`'s `sector` and `lat` leaves the
table unchanged. -/
theorem update_equal_values_id_witness :
    (∀ r ∈ (⟨[rowABC]⟩ : DB).rows, r.codigo = "ABC" → patchAgreesB pSame r = true) ∧
    updateDB ⟨[rowABC]⟩ "ABC" pSame = ⟨[rowABC]⟩ :=
  ⟨by decide, update_equal_values_id ⟨[rowABC]⟩ "ABC" pSame (by decide)⟩
